import Mathlib

/-
  Verification development for the substitute posixspawn-hook
  (src/darwin-bootstrap/posixspawn-hook.c).

  The file shallowly embeds the hook's pure logic:
  - the environment scan / rewrite (lines 249-315),
  - the injection policy (lines 188-231),
  - the Mach-O restriction inspector looks_restricted (lines 77-149),
  - the unrestrict-helper invocation spawn_unrestrict (lines 52-75),
  - the orchestrating hook_posix_spawn_generic (lines 156-367),
  - the sandbox override hook_sandbox_check (lines 385-403).

  C strings are embedded as lists of characters (Str), byte buffers as
  lists of naturals below 256, and the fallible external steps (mallocs,
  attribute calls, dup2/fcntl, spawning the helper, the original
  posix_spawn primitive) are driven by an explicit oracle so that every
  control path of the C function is a value of the model.
-/

set_option maxHeartbeats 2000000

namespace PosixSpawnHook

/-- C strings (NUL-free byte strings) are embedded as lists of characters. -/
abbrev Str := List Char

/-! ## Fixed paths and environment-variable keys from the source -/

/-- Companion library path (static const char bl_dylib[], line 183). -/
def blDylib : Str := "/Library/Substitute/Helpers/bundle-loader.dylib".toList

/-- Companion library path (static const char psh_dylib[], line 185). -/
def pshDylib : Str := "/Library/Substitute/Helpers/posixspawn-hook.dylib".toList

/-- The intermediary-exec helper path compared against at line 191. -/
def xpcproxyPath : Str := "/usr/libexec/xpcproxy".toList

/-- The trust-broker helper path excluded at line 219. -/
def substitutedPath : Str := "/Library/Substitute/Helpers/substituted".toList

/-- The notification daemon path excluded at line 220. -/
def notifydPath : Str := "/usr/sbin/notifyd".toList

/-- The remote-login daemon basename excluded at line 221. -/
def sshdName : Str := "sshd".toList

/-- The unrestrict helper program path (line 53). -/
def unrestrictProg : Str := "/Library/Substitute/Helpers/unrestrict".toList

/-- Environment key scanned at line 255. -/
def msKey : Str := "_MSSafeMode=".toList

/-- Environment key scanned at line 255 (second synonym). -/
def subKey : Str := "_SubstituteSafeMode=".toList

/-- Environment key scanned at lines 262 and 310. -/
def dilKey : Str := "DYLD_INSERT_LIBRARIES=".toList

/-- POSIX_SPAWN_SETEXEC flag bit (Darwin spawn.h: 0x0040). -/
def SETEXEC : Nat := 64

/-- POSIX_SPAWN_START_SUSPENDED flag bit (Darwin spawn.h: 0x0080). -/
def STARTSUSPENDED : Nat := 128

/-! ## advance (line 43) and xbasename (line 151) -/

/-- Embeds advance(strp, template) (line 43): if the string starts with the
template, return the remainder past it, else nothing. -/
def advance : Str → Str → Option Str
  | s, [] => some s
  | [], _ :: _ => none
  | c :: s, t :: ts => if c = t then advance s ts else none

theorem advance_eq_some {s t v : Str} : advance s t = some v ↔ s = t ++ v := by
  induction t generalizing s with
  | nil => simp [advance, eq_comm]
  | cons c ts ih =>
    cases s with
    | nil => simp [advance]
    | cons a s' =>
      by_cases h : a = c
      · subst h; simp [advance, ih]
      · simp [advance, h]

theorem advance_append (t v : Str) : advance (t ++ v) t = some v :=
  advance_eq_some.mpr rfl

/-- Embeds xbasename (line 151): the portion of the path after the last
slash, or the whole path if there is none. -/
def xbasename (p : Str) : Str :=
  p.foldl (fun acc c => if c = '/' then [] else acc ++ [c]) []

/-! ## The environment scan (lines 249-265) -/

/-- Result of the first environment loop: either a directive to skip all
injection (the goto skip on line 261), or the safe-mode flag together with
the captured DYLD_INSERT_LIBRARIES value. -/
inductive ScanResult where
  | skip : ScanResult
  | ok (safeMode : Bool) (origDyldInsert : Str) : ScanResult
deriving DecidableEq

/-- Embeds the scan loop of lines 252-265, carrying the running safe_mode
flag and the current orig_dyld_insert capture (each later occurrence of
the variable overwrites the capture, exactly as the assignment at line 263
does). -/
def scanEnv : List Str → Bool → Str → ScanResult
  | [], safe, dil => .ok safe dil
  | e :: rest, safe, dil =>
    match advance e msKey <|> advance e subKey with
    | some v =>
      if v = "0".toList ∨ v = "NO".toList then scanEnv rest safe dil
      else if v = "1".toList ∨ v = "YES".toList then scanEnv rest true dil
      else .skip
    | none =>
      match advance e dilKey with
      | some v => scanEnv rest safe v
      | none => scanEnv rest safe dil

/-! ## Splitting and rebuilding the DYLD_INSERT_LIBRARIES value
    (lines 266-303) -/

/-- Body of the while loop at line 272: walk the colon-separated value.
The accumulator holds the current element reversed.  When a segment is not
followed by a colon the loop stops (the break at line 288), so an element
after the final character is only produced by the terminal case. -/
def dilSplitAux : Str → Str → List Str
  | acc, [] => [acc.reverse]
  | acc, c :: rest =>
    if c = ':' then acc.reverse :: (if rest = [] then [] else dilSplitAux [] rest)
    else dilSplitAux (c :: acc) rest

/-- The sequence of elements the while loop at line 272 visits: none for
the empty value (the loop guard fails immediately), otherwise the
colon-separated segments, with no segment after a terminal colon. -/
def dilSplit (s : Str) : List Str :=
  if s = [] then [] else dilSplitAux [] s

/-- The test at lines 275-279: a segment is dropped when it is
byte-for-byte one of the two companion-library paths. -/
def isSubstituteLib (s : Str) : Bool := s = blDylib ∨ s = pshDylib

/-- One append step of the output buffer: the colon at line 281/293 is
written only when the buffer is nonempty (newp differs from newp_orig). -/
def joinStep (acc s : Str) : Str := if acc = [] then s else acc ++ ':' :: s

/-- Embeds lines 269-296: rebuild the DYLD_INSERT_LIBRARIES value from the
captured one, dropping companion-library elements, then (line 292 onward)
append the chosen library unless safe mode is on.  The result is the text
after the "DYLD_INSERT_LIBRARIES=" key; an empty result corresponds to the
newp == newp_orig test at line 300 that discards the entry. -/
def buildDIL (captured : Str) (safe : Bool) (lib : Str) : Str :=
  let base := (dilSplit captured).foldl
    (fun acc seg => if isSubstituteLib seg then acc else joinStep acc seg) []
  if safe then base else joinStep base lib

/-- Result of the environment rewrite: skip (bad safe-mode value), or the
safe-mode flag with the new environment array (lines 304-315): all
DYLD_INSERT_LIBRARIES entries removed, the rebuilt entry appended when
nonempty. -/
inductive RewriteOut where
  | skip : RewriteOut
  | ok (safeMode : Bool) (newEnv : List Str) : RewriteOut
deriving DecidableEq

/-- The complete environment rewrite of lines 249-315, as a function of
the environment actually scanned (my_envp) and the library to add. -/
def rewriteEnv (env : List Str) (lib : Str) : RewriteOut :=
  match scanEnv env false [] with
  | .skip => .skip
  | .ok safe captured =>
    let v := buildDIL captured safe lib
    .ok safe
      ((env.filter fun e => (advance e dilKey).isNone) ++
        (if v = [] then [] else [dilKey ++ v]))

/-- The last-captured DYLD_INSERT_LIBRARIES value of an environment (what
the loop at lines 252-265 leaves in orig_dyld_insert when it completes). -/
def capturedDIL (env : List Str) : Str :=
  (env.filterMap fun e => advance e dilKey).getLastD []

/-! ## looks_restricted (lines 77-149)

The target file is embedded as an optional list of bytes: none stands for
a failed open(2).  read/pread of n bytes succeed exactly when n bytes are
available at the requested offset (pread past end of file returns the
short count).  The code runs on a little-endian host, so the native read
of a 32-bit field is the little-endian interpretation of its bytes and
ntohl/OSSwapInt32 is the big-endian interpretation. -/

/-- Little-endian (native) 32-bit read at byte offset i. -/
def readU32LE (bs : List Nat) (i : Nat) : Nat :=
  bs.getD i 0 + 256 * bs.getD (i + 1) 0 + 65536 * bs.getD (i + 2) 0 +
    16777216 * bs.getD (i + 3) 0

/-- Big-endian 32-bit read at byte offset i (ntohl/OSSwapInt32 of the
native read). -/
def readU32BE (bs : List Nat) (i : Nat) : Nat :=
  16777216 * bs.getD i 0 + 65536 * bs.getD (i + 1) 0 + 256 * bs.getD (i + 2) 0 +
    bs.getD (i + 3) 0

/-- Outcome of the switch at line 110 on the (native-read) magic. -/
inductive HdrClass where
  | bad : HdrClass
  | ok (swap : Bool) (is64 : Bool) : HdrClass
deriving DecidableEq

/-- The switch at lines 110-130: MH_MAGIC, MH_MAGIC_64, MH_CIGAM,
MH_CIGAM_64, anything else is an error. -/
def classifyMagic (m : Nat) : HdrClass :=
  if m = 0xfeedface then .ok false false
  else if m = 0xfeedfacf then .ok false true
  else if m = 0xcefaedfe then .ok true false
  else if m = 0xcffaedfe then .ok true true
  else .bad

/-- The byte pattern searched by memmem at line 144: the section name
string with its terminating NUL, sizeof("__restrict") = 11 bytes. -/
def restrictPattern : List Nat := [95, 95, 114, 101, 115, 116, 114, 105, 99, 116, 0]

/-- memmem(hay, hayLen, pat, patLen) as a Boolean: does pat occur as a
contiguous run of bytes inside hay? -/
def hasSubstr (pat : List Nat) : List Nat → Bool
  | [] => pat.isEmpty
  | h :: t => pat.isPrefixOf (h :: t) || hasSubstr pat t

/-- Classified exit of looks_restricted, one constructor per goto/return
site, used both for the verdict and for the file-descriptor/buffer
bookkeeping. -/
inductive InspStep where
  | openFail : InspStep
  | hdrShort : InspStep
  | fatZero : InspStep
  | fatShort : InspStep
  | badMagic : InspStep
  | cmdsShort : InspStep
  | scanned (restricted : Bool) : InspStep
deriving DecidableEq

/-- Lines 110-145: classify the Mach-O header at byte offset off, read
sizeofcmds (endian-corrected, field at offset 20), and pread exactly
sizeofcmds bytes starting right after the (28- or 32-byte) header. -/
def inspectMachO (bs : List Nat) (off : Nat) : InspStep :=
  match classifyMagic (readU32LE bs off) with
  | .bad => .badMagic
  | .ok swap is64 =>
    let sizeofcmds := if swap then readU32BE bs (off + 20) else readU32LE bs (off + 20)
    let cmdsOff := off + (if is64 then 32 else 28)
    let actual := if bs.length ≤ cmdsOff then 0 else min sizeofcmds (bs.length - cmdsOff)
    if actual ≠ sizeofcmds then .cmdsShort
    else .scanned (hasSubstr restrictPattern ((bs.drop cmdsOff).take sizeofcmds))

/-- Lines 77-149 as a classified exit: open, 28-byte header read, FAT
redirection through the first fat_arch's big-endian offset (line 102),
then the Mach-O scan. -/
def inspect (file : Option (List Nat)) : InspStep :=
  match file with
  | none => .openFail
  | some bs =>
    if bs.length < 28 then .hdrShort
    else if readU32BE bs 0 = 0xcafebabe then
      if readU32LE bs 4 = 0 then .fatZero
      else
        let off := readU32BE bs 16
        if bs.length < off + 28 then .fatShort
        else inspectMachO bs off
    else inspectMachO bs 0

/-- looks_restricted (line 77): the Boolean the caller sees; every error
exit yields false. -/
def looks_restricted (file : Option (List Nat)) : Bool :=
  match inspect file with
  | .scanned r => r
  | _ => false

/-! ### Claim-side reading of the inspector (for C5): extract the raw
load-command bytes, then search them for the marker pattern. -/

/-- A minimal unrestricted Mach-O image: thin little-endian 32-bit header,
an 11-byte load-command region that does not contain the marker. -/
def plainBytes : List Nat :=
  [0xce, 0xfa, 0xed, 0xfe, 0, 0, 0, 0, 0, 0, 0, 0, 0, 0, 0, 0,
   0, 0, 0, 0, 11, 0, 0, 0, 0, 0, 0, 0] ++
  [1, 2, 3, 4, 5, 6, 7, 8, 9, 10, 11]

/-- The same image with the marker section name in its load commands. -/
def restrictedBytes : List Nat :=
  [0xce, 0xfa, 0xed, 0xfe, 0, 0, 0, 0, 0, 0, 0, 0, 0, 0, 0, 0,
   0, 0, 0, 0, 11, 0, 0, 0, 0, 0, 0, 0] ++ restrictPattern

/-! ## The injection policy (lines 188-231) -/

/-- Lines 188-231: which dylib to add, if any.  For launchd only
/usr/libexec/xpcproxy gets the self-referential hook dylib; otherwise
bundle-loader is chosen unless the target path or argv[0] basename is
excluded; finally access(dylib, R_OK) must succeed (line 226). -/
def decideDylib (isLaunchd : Bool) (path : Str) (argv0 : Option Str)
    (readable : Str → Bool) : Option Str :=
  let chosen : Option Str :=
    if isLaunchd then
      if path ≠ xpcproxyPath then none else some pshDylib
    else
      if path = substitutedPath ∨ path = notifydPath ∨
          xbasename (argv0.getD []) = sshdName then none
      else some blDylib
  match chosen with
  | none => none
  | some d => if readable d then some d else none

/-! ## The hook state model -/

/-- Resources a single interception call can hold: the inspector's file
descriptor and load-command buffer, the rebuilt environment string (new)
and array (new_envp), the cloned attributes (my_attr), and the marker
descriptor 255. -/
structure Ledger where
  inspFd : Bool := false
  cmdsBuf : Bool := false
  newStr : Bool := false
  newArr : Bool := false
  attrClone : Bool := false
  fd255 : Bool := false
deriving DecidableEq

/-- Which attribute argument a call to the original primitive receives:
the caller's own attrp pointer, or the call-local clone with the given
flags word. -/
inductive AttrArg where
  | callerAttr : AttrArg
  | cloned (flags : Nat) : AttrArg
deriving DecidableEq

/-- Which environment argument a call to the original primitive receives:
the caller's original envp, or the rebuilt array. -/
inductive EnvArg where
  | orig : EnvArg
  | rewritten (env : List Str) : EnvArg
deriving DecidableEq

/-- One invocation of the original spawn primitive.  argv and the file
actions are passed through verbatim on every path of the C function, so
they are recorded as the constant-true flags origArgv/origFileActions. -/
structure SpawnCall where
  path : Str
  attr : AttrArg
  env : EnvArg
  origArgv : Bool
  origFileActions : Bool
deriving DecidableEq

/-- One invocation of spawn_unrestrict (line 52): the helper argv and
environment, and the fact that it goes through the un-hooked
old_posix_spawn pointer. -/
structure HelperCall where
  argv : List Str
  env : List Str
  viaOriginal : Bool
deriving DecidableEq

/-- spawn_unrestrict (lines 52-64): argv is
{prog, pid, should_resume, is_exec}, the environment is exactly
{"_MSSafeMode=1"}, and the spawn uses old_posix_spawn. -/
def spawn_unrestrict (pid : Int) (shouldResume isExec : Bool) : HelperCall :=
  { argv := [unrestrictProg, (toString pid).toList,
             (if shouldResume then "1" else "0").toList,
             (if isExec then "1" else "0").toList],
    env := ["_MSSafeMode=1".toList],
    viaOriginal := true }

/-- Observable operations of one interception call, in program order. -/
inductive Event where
  | spawn (c : SpawnCall) : Event
  | helper (h : HelperCall) (started : Bool) : Event
deriving DecidableEq

/-- How the interception call ends: an ordinary return value, control
transferred by a successful SETEXEC spawn (the function never returns),
or undefined behaviour (a NULL malloc result is dereferenced). -/
inductive HookResult where
  | ret (r : Int) : HookResult
  | noReturn : HookResult
  | crash : HookResult
deriving DecidableEq

/-- Everything observable about one interception call. -/
structure HookOut where
  result : HookResult
  events : List Event
  acq : Ledger
  rel : Ledger
  markerCloexec : Bool
deriving DecidableEq

/-- Outcomes of the fallible external steps the C function performs, plus
the target file bytes, R_OK accessibility, and the behaviour of the
original primitive. -/
structure Oracle where
  getflagsFails : Bool
  attrCloneFails : Bool
  attrInitFails : Bool
  newAllocFails : Bool
  envpAllocFails : Bool
  setflagsFails : Bool
  dup2Fails : Bool
  fcntlFails : Bool
  unrestrictPreFails : Bool
  unrestrictPostFails : Bool
  file : Option (List Nat)
  readable : Str → Bool
  oldCall : SpawnCall → Int
  selfPid : Int
  childPid : Int

/-- The caller-supplied arguments of one posix_spawn{,p} call.  argv0 is
the first element of the argument vector (none embeds a NULL argv[0],
compare line 221); inherited is *_NSGetEnviron(), used when envp is
NULL (line 165). -/
structure Request where
  isLaunchd : Bool
  path : Str
  argv0 : Option Str
  hasAttr : Bool
  attrFlags : Nat
  envp : Option (List Str)
  inherited : List Str

/-- The original-argument call of the skip path (line 361). -/
def origCall (rq : Request) : SpawnCall :=
  { path := rq.path, attr := .callerAttr, env := .orig,
    origArgv := true, origFileActions := true }

/-- The flags word posix_spawnattr_getflags reports (0 when attrp is
NULL, line 168). -/
def origFlags (rq : Request) : Nat := if rq.hasAttr then rq.attrFlags else 0

/-- The cleanup label (lines 362-365): free(new_envp); free(new);
free(my_attr).  The inspector released its own resources inside
looks_restricted; the marker descriptor is never closed here. -/
def cleanupRel (acq : Ledger) : Ledger :=
  { inspFd := acq.inspFd, cmdsBuf := acq.cmdsBuf, newStr := acq.newStr,
    newArr := acq.newArr, attrClone := acq.attrClone, fd255 := false }

/-- Package one exit of the hook: a returning exit runs the cleanup label,
a SETEXEC transfer or a crash never reaches it. -/
def finishOut (res : HookResult) (events : List Event) (acq : Ledger)
    (cloexec : Bool) : HookOut :=
  match res with
  | .ret r => { result := .ret r, events := events, acq := acq,
                rel := cleanupRel acq, markerCloexec := cloexec }
  | res => { result := res, events := events, acq := acq, rel := {},
             markerCloexec := cloexec }

/-- The skip label (lines 360-366): call the original primitive with the
caller's untouched arguments, then clean up.  Whether that call is a
SETEXEC transfer depends on the caller's own attribute flags. -/
def mkSkip (o : Oracle) (rq : Request) (pre : List Event) (acq : Ledger)
    (cloexec : Bool) : HookOut :=
  let r := o.oldCall (origCall rq)
  let res := if origFlags rq &&& SETEXEC ≠ 0 ∧ r = 0 then HookResult.noReturn
             else .ret r
  finishOut res (pre ++ [.spawn (origCall rq)]) acq cloexec

/-- The injected call of line 346: the caller's path, argv and file
actions, the cloned attributes with the given flags, and the rebuilt
environment. -/
def injectedCall (rq : Request) (flags : Nat) (newEnv : List Str) : SpawnCall :=
  { path := rq.path, attr := .cloned flags, env := .rewritten newEnv,
    origArgv := true, origFileActions := true }

/-- Lines 346-357: the injected call to the original primitive with the
cloned attributes and rebuilt environment, followed (for a create-new
spawn that succeeded) by the post-spawn unrestrict of the child. -/
def injectedFinish (o : Oracle) (rq : Request) (pre : List Event) (acq : Ledger)
    (cloexec : Bool) (flags : Nat) (newEnv : List Str) (needUnrestrict wasSuspended : Bool) :
    HookOut :=
  let c : SpawnCall := injectedCall rq flags newEnv
  let r := o.oldCall c
  if flags &&& SETEXEC ≠ 0 ∧ r = 0 then
    finishOut .noReturn (pre ++ [.spawn c]) acq cloexec
  else if r ≠ 0 then
    finishOut (.ret r) (pre ++ [.spawn c]) acq cloexec
  else
    let post := if needUnrestrict then
      [Event.helper (spawn_unrestrict o.childPid (!wasSuspended) false)
        (!o.unrestrictPostFails)]
    else []
    finishOut (.ret 0) (pre ++ [.spawn c] ++ post) acq cloexec

/-- A crash exit (NULL malloc result dereferenced): no call to the
original primitive is ever made, nothing is released. -/
def mkCrash (events : List Event) (acq : Ledger) : HookOut :=
  { result := .crash, events := events, acq := acq, rel := {}, markerCloexec := false }

/-- Resources looks_restricted touches, per exit (the fd is opened unless
open failed; the load-command buffer is allocated once the magic was
classified; both are released inside the function on every path). -/
def inspectAcq (file : Option (List Nat)) : Ledger :=
  match inspect file with
  | .openFail => {}
  | .hdrShort | .fatZero | .fatShort | .badMagic => { inspFd := true }
  | .cmdsShort | .scanned _ => { inspFd := true, cmdsBuf := true }

/-- Ledger after the attribute clone/init succeeded (lines 233-243). -/
def ledgerA : Ledger := { attrClone := true }

/-- Ledger after the new environment string was allocated (line 266). -/
def ledgerB : Ledger := { attrClone := true, newStr := true }

/-- Ledger after the new environment array was allocated (line 304). -/
def ledgerC : Ledger := { attrClone := true, newStr := true, newArr := true }

/-- Ledger after looks_restricted ran (line 323): its fd and buffer were
acquired and already released inside it. -/
def ledgerD (file : Option (List Nat)) : Ledger :=
  { ledgerC with inspFd := (inspectAcq file).inspFd,
                 cmdsBuf := (inspectAcq file).cmdsBuf }

/-- Ledger after dup2(2, 255) succeeded (line 334). -/
def ledgerE (file : Option (List Nat)) : Ledger := { ledgerD file with fd255 := true }

/-- The new environment array of lines 304-315: all DYLD_INSERT_LIBRARIES
entries removed, the rebuilt entry appended when its value is nonempty. -/
def rewrittenEnvOf (env : List Str) (captured : Str) (safe : Bool) (lib : Str) :
    List Str :=
  (env.filter fun e => (advance e dilKey).isNone) ++
    (if buildDIL captured safe lib = [] then []
     else [dilKey ++ buildDIL captured safe lib])

/-- was_suspended (line 328): whether the caller's flags already carried
POSIX_SPAWN_START_SUSPENDED. -/
def wasSuspendedOf (rq : Request) : Bool :=
  decide (origFlags rq &&& STARTSUSPENDED ≠ 0)

/-- hook_posix_spawn_generic (lines 156-367).  The oracle supplies every
external outcome; the request supplies the caller's arguments.  Both
hook_posix_spawn and hook_posix_spawnp delegate here, differing only in
which original primitive the oracle's oldCall stands for. -/
def hook_posix_spawn_generic (o : Oracle) (rq : Request) : HookOut :=
  -- lines 168-170: read the caller's flags
  if rq.hasAttr ∧ o.getflagsFails then mkSkip o rq [] {} false
  else
    -- lines 188-231: policy
    match decideDylib rq.isLaunchd rq.path rq.argv0 o.readable with
    | none => mkSkip o rq [] {} false
    | some dylib =>
      -- lines 233-243: clone or init the attributes
      if (if rq.hasAttr then o.attrCloneFails else o.attrInitFails) then
        mkSkip o rq [] {} false
      else
        -- lines 252-265: scan
        match scanEnv (rq.envp.getD rq.inherited) false [] with
        | .skip => mkSkip o rq [] ledgerA false
        | .ok safeMode captured =>
          -- line 266: malloc for the new string, unchecked in the source
          if o.newAllocFails then mkCrash [] ledgerA
          -- line 304: malloc for the new array, unchecked in the source
          else if o.envpAllocFails then mkCrash [] ledgerB
          -- line 317: safe mode skips to the original call
          else if safeMode then mkSkip o rq [] ledgerC false
          -- line 323: inspect the target binary
          else if looks_restricted o.file then
            -- line 330: setflags after forcing the suspended flag on
            if o.setflagsFails then mkSkip o rq [] (ledgerD o.file) false
            else if (origFlags rq ||| STARTSUSPENDED) &&& SETEXEC ≠ 0 then
              -- lines 332-342: marker fd and pre-exec unrestrict
              if o.dup2Fails then mkSkip o rq [] (ledgerD o.file) false
              else if o.fcntlFails then mkSkip o rq [] (ledgerE o.file) false
              else if o.unrestrictPreFails then
                mkSkip o rq
                  [.helper (spawn_unrestrict o.selfPid (!wasSuspendedOf rq) true) false]
                  (ledgerE o.file) true
              else
                injectedFinish o rq
                  [.helper (spawn_unrestrict o.selfPid (!wasSuspendedOf rq) true) true]
                  (ledgerE o.file) true (origFlags rq ||| STARTSUSPENDED)
                  (rewrittenEnvOf (rq.envp.getD rq.inherited) captured safeMode dylib)
                  true (wasSuspendedOf rq)
            else
              injectedFinish o rq [] (ledgerD o.file) false
                (origFlags rq ||| STARTSUSPENDED)
                (rewrittenEnvOf (rq.envp.getD rq.inherited) captured safeMode dylib)
                true (wasSuspendedOf rq)
          else
            injectedFinish o rq [] (ledgerD o.file) false (origFlags rq)
              (rewrittenEnvOf (rq.envp.getD rq.inherited) captured safeMode dylib)
              false false

/-! ## hook_sandbox_check (lines 385-403) -/

/-- What the sandbox override does: grant, or forward the same pid,
operation, type and the five captured variadic slots to the original
checker and return its result. -/
inductive SandboxOutcome where
  | allowed : SandboxOutcome
  | forward (pid : Int) (op : Str) (typ : Int) (slots : List Int) : SandboxOutcome
deriving DecidableEq

/-- The fixed operation name compared at line 394. -/
def machLookupOp : Str := "mach-lookup".toList

/-- The fixed service name compared at line 396. -/
def substitutedService : Str := "com.ex.substituted".toList

/-- hook_sandbox_check (lines 385-403): five pointer-sized variadic slots
are captured; for op "mach-lookup" the first slot is read as a string
(deref gives the string a slot points to) and compared against the broker
service name; a match returns 0 immediately, anything else forwards
everything to the original checker. -/
def hook_sandbox_check (deref : Int → Str) (pid : Int) (op : Str) (typ : Int)
    (slots : List Int) : SandboxOutcome :=
  if op = machLookupOp ∧ deref (slots.headD 0) = substitutedService then .allowed
  else .forward pid op typ slots

/-! ## Concrete oracles and requests used by sanity checks, witnesses and
counterexamples -/

/-- An oracle on which every external step succeeds, the original
primitive reports success, the target binary is absent (open fails) and
both companion libraries are installed. -/
def oracleOK : Oracle :=
  { getflagsFails := false, attrCloneFails := false, attrInitFails := false,
    newAllocFails := false, envpAllocFails := false, setflagsFails := false,
    dup2Fails := false, fcntlFails := false, unrestrictPreFails := false,
    unrestrictPostFails := false, file := none, readable := fun _ => true,
    oldCall := fun _ => 0, selfPid := 100, childPid := 500 }

/-- launchd spawning xpcproxy with an empty caller environment and no
attributes. -/
def rqXpc : Request :=
  { isLaunchd := true, path := xpcproxyPath, argv0 := some xpcproxyPath,
    hasAttr := false, attrFlags := 0, envp := some [], inherited := [] }

/-- A plain non-launchd spawn request of an unexcluded target. -/
def rqPlain : Request :=
  { isLaunchd := false, path := "/bin/foo".toList, argv0 := some "/bin/foo".toList,
    hasAttr := false, attrFlags := 0, envp := some [], inherited := [] }

/-- A replace-current-process (SETEXEC) spawn request of an unexcluded
target. -/
def rqExec : Request :=
  { isLaunchd := false, path := "/bin/foo".toList, argv0 := some "/bin/foo".toList,
    hasAttr := true, attrFlags := SETEXEC, envp := some [], inherited := [] }

/-- oracleOK with the allocation of the rebuilt environment string (the
unchecked malloc at line 266) failing. -/
def oracleNewAllocFail : Oracle := { oracleOK with newAllocFails := true }

/-- oracleOK with a restricted target binary and the original primitive
failing with a nonzero error. -/
def oracleRestrictedOldFail : Oracle :=
  { oracleOK with file := some restrictedBytes, oldCall := fun _ => 2 }

/-- oracleOK with a restricted target binary. -/
def oracleRestricted : Oracle := { oracleOK with file := some restrictedBytes }

/-! ## Specification-side definitions, written from the wording of the
spec and the claims, compared against the code-side functions above. -/

/-- A colon prepended to every element, concatenated. -/
def sepcat : List Str → Str
  | [] => []
  | x :: xs => ':' :: x ++ sepcat xs

/-- Elements joined with single colons ("the colon-separated list"). -/
def specJoin : List Str → Str
  | [] => []
  | x :: xs => x ++ sepcat xs

/-- Keeps a list element unless it is one of the two companion-library
paths ("drop any element byte-for-byte equal to either of the two known
companion-library paths"). -/
def keepSeg (s : Str) : Bool := !isSubstituteLib s

/-- Recognizes an empty list element. -/
def emptyElem (s : Str) : Bool := s = []

/-- The corrected description of the rebuilt DYLD_INSERT_LIBRARIES value:
take the elements the loop visits in the value captured from the last
original occurrence, drop companion-library elements, append the
requested library unless safe mode is on, drop leading empty elements,
and join the rest with colons. -/
def rebuiltValue (env : List Str) (safe : Bool) (lib : Str) : Str :=
  specJoin ((((dilSplit (capturedDIL env)).filter keepSeg) ++
    (if safe then [] else [lib])).dropWhile emptyElem)

/-- An entry that switches safe mode on: one of the two recognized keys
with value 1 or YES. -/
def isSafeOn (e : Str) : Bool :=
  match advance e msKey <|> advance e subKey with
  | some v => v = "1".toList ∨ v = "YES".toList
  | none => false

/-- An entry with a recognized safe-mode key and an unrecognized value
(neither 0/NO nor 1/YES); such an entry makes the scan skip injection. -/
def isSafeBad (e : Str) : Bool :=
  match advance e msKey <|> advance e subKey with
  | some v => ¬(v = "0".toList ∨ v = "NO".toList ∨ v = "1".toList ∨ v = "YES".toList)
  | none => false

/-- The safe-mode semantics as claim C4 words it: over all recognized
entries, the last non-empty value wins; 0/NO means disabled, 1/YES means
enabled, anything else (none) means skip the injection. -/
def claimC4Safe (env : List Str) : Option Bool :=
  match ((env.filterMap fun e => advance e msKey <|> advance e subKey).filter
      fun v => v ≠ []).getLast? with
  | none => some false
  | some v =>
    if v = "0".toList ∨ v = "NO".toList then some false
    else if v = "1".toList ∨ v = "YES".toList then some true
    else none

/-- Ordinary colon-splitting ("split the captured value"), the reading a
specification reader would give it: n colons make n+1 elements. -/
def specSplit : Str → List Str
  | [] => [[]]
  | c :: rest =>
    if c = ':' then [] :: specSplit rest
    else
      match specSplit rest with
      | [] => [[c]]
      | s :: ss => (c :: s) :: ss

/-- The value of the first original occurrence of the injected-libraries
variable, as claim C2 words it. -/
def firstCapturedDIL (env : List Str) : Str :=
  (env.filterMap fun e => advance e dilKey).headD []

/-- The rebuilt value exactly as claim C2 words it: the colon-separated
list captured from the first occurrence, companion elements dropped, the
requested library appended unless safe mode is on. -/
def claimC2Value (env : List Str) (safe : Bool) (lib : Str) : Str :=
  specJoin ((specSplit (firstCapturedDIL env)).filter keepSeg ++
    (if safe then [] else [lib]))

/-- The rewritten environment exactly as claim C2 words it. -/
def claimC2Env (env : List Str) (safe : Bool) (lib : Str) : List Str :=
  (env.filter fun e => (advance e dilKey).isNone) ++
    (if claimC2Value env safe lib = [] then [] else [dilKey ++ claimC2Value env safe lib])

/-- A non-companion library path, for exercising the rewrite outside the
two values the hook ever passes. -/
def fooLib : Str := "/tmp/x.dylib".toList

/-- Environment with two occurrences of the injected-libraries variable
holding different values. -/
def envTwoDIL : List Str :=
  ["DYLD_INSERT_LIBRARIES=/a".toList, "DYLD_INSERT_LIBRARIES=/b".toList]

/-- Environment enabling safe mode and then apparently disabling it. -/
def envOnOff : List Str := ["_MSSafeMode=1".toList, "_MSSafeMode=0".toList]

/-- Environment with safe mode on and a companion library already in the
injected-libraries variable. -/
def envSafeWithBl : List Str := ["_MSSafeMode=1".toList, dilKey ++ blDylib]

/-- Environment with safe mode on and an injected-libraries value with a
trailing empty element. -/
def envSafeTrailing : List Str := ["_MSSafeMode=1".toList, dilKey ++ "a::".toList]

/-- rqPlain with envSafeWithBl as the caller environment. -/
def rqSafeBl : Request := { rqPlain with envp := some envSafeWithBl }

/-! # Theorems -/

/-! ## Generic list facts used below -/

theorem dropWhile_append {α : Type} (p : α → Bool) (l m : List α) :
    (l ++ m).dropWhile p = if l.all p then m.dropWhile p else l.dropWhile p ++ m := by
  induction l with
  | nil => simp
  | cons a l ih =>
    by_cases h : p a
    · simp [List.dropWhile_cons, h, ih]
    · simp [List.dropWhile_cons, h]

theorem dropWhile_idem {α : Type} (p : α → Bool) (l : List α) :
    (l.dropWhile p).dropWhile p = l.dropWhile p := by
  induction l with
  | nil => simp
  | cons a l ih =>
    by_cases h : p a <;> simp [List.dropWhile_cons, h, ih]

theorem all_dropWhile {α : Type} (p : α → Bool) (l : List α) :
    (l.dropWhile p).all p = l.all p := by
  induction l with
  | nil => simp
  | cons a l ih =>
    by_cases h : p a <;> simp [List.dropWhile_cons, h, ih]

theorem mem_of_mem_dropWhile {α : Type} {p : α → Bool} {l : List α} {x : α}
    (h : x ∈ l.dropWhile p) : x ∈ l :=
  (List.dropWhile_sublist p).mem h

/-! ## The join/split machinery of lines 266-303 -/

theorem foldl_joinStep_of_ne_nil (xs : List Str) :
    ∀ acc : Str, acc ≠ [] → xs.foldl joinStep acc = acc ++ sepcat xs := by
  induction xs with
  | nil => intro acc _; simp [sepcat]
  | cons x xs ih =>
    intro acc h
    have h1 : joinStep acc x = acc ++ ':' :: x := by simp [joinStep, h]
    have h2 : acc ++ ':' :: x ≠ [] := by simp
    simp [List.foldl_cons, h1, ih _ h2, sepcat]

theorem foldJoin_eq_specJoin (xs : List Str) :
    xs.foldl joinStep [] = specJoin (xs.dropWhile emptyElem) := by
  induction xs with
  | nil => rfl
  | cons x xs ih =>
    by_cases hx : x = []
    · subst hx
      have : joinStep [] ([] : Str) = [] := by simp [joinStep]
      simp [List.foldl_cons, this, ih, List.dropWhile_cons, emptyElem]
    · have h0 : joinStep [] x = x := by simp [joinStep]
      simp [List.foldl_cons, h0, foldl_joinStep_of_ne_nil xs x hx,
        List.dropWhile_cons, hx, specJoin, emptyElem]

theorem dilSplitAux_nil (acc : Str) : dilSplitAux acc [] = [acc.reverse] := rfl

theorem dilSplitAux_colon (acc rest : Str) :
    dilSplitAux acc (':' :: rest) =
      acc.reverse :: (if rest = [] then [] else dilSplitAux [] rest) := by
  simp [dilSplitAux]

theorem dilSplitAux_append (y : Str) (hy : ∀ c ∈ y, c ≠ ':') :
    ∀ acc rest, dilSplitAux acc (y ++ rest) = dilSplitAux (y.reverse ++ acc) rest := by
  induction y with
  | nil => intro acc rest; simp
  | cons c y ih =>
    intro acc rest
    have hc : c ≠ ':' := hy c (by simp)
    have hy' : ∀ d ∈ y, d ≠ ':' := fun d hd => hy d (by simp [hd])
    show dilSplitAux acc (c :: (y ++ rest)) = _
    rw [show dilSplitAux acc (c :: (y ++ rest)) = dilSplitAux (c :: acc) (y ++ rest) by
      simp [dilSplitAux, hc]]
    rw [ih hy' (c :: acc) rest]
    simp

theorem dilSplitAux_colonFree (rest : Str) :
    ∀ acc : Str, (∀ c ∈ acc, c ≠ ':') →
      ∀ x ∈ dilSplitAux acc rest, ∀ c ∈ x, c ≠ ':' := by
  induction rest with
  | nil =>
    intro acc hacc x hx
    rw [dilSplitAux_nil] at hx
    simp at hx
    subst hx
    intro c hc
    exact hacc c (List.mem_reverse.mp hc)
  | cons a rest ih =>
    intro acc hacc x hx
    by_cases ha : a = ':'
    · subst ha
      rw [dilSplitAux_colon] at hx
      rcases List.mem_cons.mp hx with hx | hx
      · subst hx
        intro c hc
        exact hacc c (List.mem_reverse.mp hc)
      · by_cases hr : rest = []
        · simp [hr] at hx
        · rw [if_neg hr] at hx
          exact ih [] (by simp) x hx
    · rw [show dilSplitAux acc (a :: rest) = dilSplitAux (a :: acc) rest by
        simp [dilSplitAux, ha]] at hx
      refine ih (a :: acc) ?_ x hx
      intro c hc
      rcases List.mem_cons.mp hc with h | h
      · subst h; exact ha
      · exact hacc c h

theorem dilSplit_colonFree (s : Str) : ∀ x ∈ dilSplit s, ∀ c ∈ x, c ≠ ':' := by
  intro x hx
  unfold dilSplit at hx
  by_cases hs : s = []
  · simp [hs] at hx
  · rw [if_neg hs] at hx
    exact dilSplitAux_colonFree s [] (by simp) x hx

theorem specJoin_two (y : Str) (zs : List Str) (hzs : zs ≠ []) :
    specJoin (y :: zs) = y ++ ':' :: specJoin zs := by
  cases zs with
  | nil => exact absurd rfl hzs
  | cons z t => rfl

theorem sepcat_eq_nil {t : List Str} (h : sepcat t = []) : t = [] := by
  cases t with
  | nil => rfl
  | cons x xs => simp [sepcat] at h

theorem specJoin_eq_nil {ys : List Str} (h : specJoin ys = []) :
    ys = [] ∨ ys = [[]] := by
  cases ys with
  | nil => exact Or.inl rfl
  | cons y t =>
    simp only [specJoin] at h
    rcases List.append_eq_nil.mp h with ⟨hy, ht⟩
    right
    rw [hy, sepcat_eq_nil ht]

theorem dilSplit_specJoin (ys : List Str) (h : ∀ x ∈ ys, ∀ c ∈ x, c ≠ ':') :
    dilSplit (specJoin ys) =
      if ys.getLast? = some [] then ys.dropLast else ys := by
  induction ys with
  | nil => simp [specJoin, dilSplit]
  | cons y ys ih =>
    cases ys with
    | nil =>
      by_cases hy : y = []
      · subst hy; simp [specJoin, sepcat, dilSplit]
      · have h1 : specJoin [y] = y := by simp [specJoin, sepcat]
        have hsplit : dilSplit y = [y] := by
          unfold dilSplit
          rw [if_neg hy]
          have h2 := dilSplitAux_append y (h y (by simp)) [] []
          simp only [List.append_nil] at h2
          rw [h2, dilSplitAux_nil]
          simp
        rw [h1, hsplit]
        simp [hy]
    | cons z t =>
      have hJ : specJoin (y :: z :: t) = y ++ ':' :: specJoin (z :: t) := rfl
      have hcf : ∀ c ∈ y, c ≠ ':' := h y (by simp)
      have hne : y ++ ':' :: specJoin (z :: t) ≠ [] := by simp
      have hstep : dilSplit (y ++ ':' :: specJoin (z :: t)) =
          y :: (if specJoin (z :: t) = [] then []
                else dilSplitAux [] (specJoin (z :: t))) := by
        unfold dilSplit
        rw [if_neg hne, dilSplitAux_append y hcf [] (':' :: specJoin (z :: t)),
          List.append_nil, dilSplitAux_colon]
        simp
      rw [hJ, hstep]
      by_cases hnil : specJoin (z :: t) = []
      · rcases specJoin_eq_nil hnil with h1 | h1
        · exact absurd h1 (by simp)
        · injection h1 with hz ht
          subst hz; subst ht
          simp [hnil]
      · have hd : dilSplitAux [] (specJoin (z :: t)) = dilSplit (specJoin (z :: t)) := by
          unfold dilSplit
          rw [if_neg hnil]
        rw [if_neg hnil, hd, ih (fun x hx => h x (by simp [hx]))]
        have hlast : (y :: z :: t).getLast? = (z :: t).getLast? :=
          List.getLast?_cons_cons
        have hdrop : (y :: z :: t).dropLast = y :: (z :: t).dropLast := rfl
        rw [hlast, hdrop]
        split <;> rfl

/-! ## Facts about the environment scan of lines 252-265 -/

theorem scanEnv_cons (e : Str) (rest : List Str) (b : Bool) (d : Str) :
    scanEnv (e :: rest) b d =
      match advance e msKey <|> advance e subKey with
      | some v =>
        if v = "0".toList ∨ v = "NO".toList then scanEnv rest b d
        else if v = "1".toList ∨ v = "YES".toList then scanEnv rest true d
        else .skip
      | none =>
        match advance e dilKey with
        | some v => scanEnv rest b v
        | none => scanEnv rest b d := rfl

theorem advance_head_eq {e t v : Str} (h : advance e t = some v) :
    e.head? = (t ++ v).head? := by rw [advance_eq_some.mp h]

theorem ms_head (v : Str) : (msKey ++ v).head? = some '_' := rfl

theorem sub_head (v : Str) : (subKey ++ v).head? = some '_' := rfl

theorem dil_head (v : Str) : (dilKey ++ v).head? = some 'D' := rfl

theorem ms_dil_none {e v : Str} (h : advance e msKey = some v) :
    advance e dilKey = none := by
  cases hd : advance e dilKey with
  | none => rfl
  | some w =>
    have h1 := advance_head_eq h
    have h2 := advance_head_eq hd
    rw [ms_head] at h1
    rw [dil_head] at h2
    rw [h1] at h2
    exact absurd h2 (by decide)

theorem sub_dil_none {e v : Str} (h : advance e subKey = some v) :
    advance e dilKey = none := by
  cases hd : advance e dilKey with
  | none => rfl
  | some w =>
    have h1 := advance_head_eq h
    have h2 := advance_head_eq hd
    rw [sub_head] at h1
    rw [dil_head] at h2
    rw [h1] at h2
    exact absurd h2 (by decide)

theorem dil_ms_none (v : Str) : advance (dilKey ++ v) msKey = none := by
  cases hd : advance (dilKey ++ v) msKey with
  | none => rfl
  | some w =>
    have h2 := advance_head_eq hd
    rw [ms_head, dil_head] at h2
    exact absurd h2 (by decide)

theorem dil_sub_none (v : Str) : advance (dilKey ++ v) subKey = none := by
  cases hd : advance (dilKey ++ v) subKey with
  | none => rfl
  | some w =>
    have h2 := advance_head_eq hd
    rw [sub_head, dil_head] at h2
    exact absurd h2 (by decide)

theorem scanEnv_append (xs ys : List Str) : ∀ b d,
    scanEnv (xs ++ ys) b d =
      match scanEnv xs b d with
      | .skip => .skip
      | .ok s c => scanEnv ys s c := by
  induction xs with
  | nil => intro b d; rfl
  | cons e xs ih =>
    intro b d
    rw [List.cons_append, scanEnv_cons, scanEnv_cons]
    cases advance e msKey <|> advance e subKey with
    | some v =>
      by_cases h0 : v = "0".toList ∨ v = "NO".toList
      · simp only [if_pos h0]; exact ih b d
      · by_cases h1 : v = "1".toList ∨ v = "YES".toList
        · simp only [if_neg h0, if_pos h1]; exact ih true d
        · simp only [if_neg h0, if_neg h1]
    | none =>
      cases advance e dilKey with
      | some v => exact ih b v
      | none => exact ih b d

theorem scanEnv_captures (env : List Str) : ∀ b d s c,
    scanEnv env b d = .ok s c →
    c = (env.filterMap fun e => advance e dilKey).getLastD d := by
  induction env with
  | nil =>
    intro b d s c h
    simp only [scanEnv] at h
    injection h with _ hc
    simp [hc.symm]
  | cons e rest ih =>
    intro b d s c h
    rw [scanEnv_cons] at h
    rcases hms : advance e msKey with _ | v₁
    · rcases hsub : advance e subKey with _ | v₂
      · rw [hms, hsub] at h
        simp only [Option.none_orElse] at h
        rcases hdil : advance e dilKey with _ | v₃
        · rw [hdil] at h
          simp only [List.filterMap_cons, hdil]
          exact ih b d s c h
        · rw [hdil] at h
          simp only [List.filterMap_cons, hdil]
          rw [List.getLastD_cons]
          exact ih b v₃ s c h
      · rw [hms, hsub] at h
        simp only [Option.none_orElse, Option.some_orElse] at h
        have hdil := sub_dil_none hsub
        simp only [List.filterMap_cons, hdil]
        by_cases h0 : v₂ = "0".toList ∨ v₂ = "NO".toList
        · rw [if_pos h0] at h; exact ih b d s c h
        · by_cases h1 : v₂ = "1".toList ∨ v₂ = "YES".toList
          · rw [if_neg h0, if_pos h1] at h; exact ih true d s c h
          · rw [if_neg h0, if_neg h1] at h; cases h
    · rw [hms] at h
      simp only [Option.some_orElse] at h
      have hdil := ms_dil_none hms
      simp only [List.filterMap_cons, hdil]
      by_cases h0 : v₁ = "0".toList ∨ v₁ = "NO".toList
      · rw [if_pos h0] at h; exact ih b d s c h
      · by_cases h1 : v₁ = "1".toList ∨ v₁ = "YES".toList
        · rw [if_neg h0, if_pos h1] at h; exact ih true d s c h
        · rw [if_neg h0, if_neg h1] at h; cases h

theorem scanEnv_safe (env : List Str) : ∀ b d s c,
    scanEnv env b d = .ok s c → s = (b || env.any isSafeOn) := by
  induction env with
  | nil =>
    intro b d s c h
    simp only [scanEnv] at h
    injection h with hs _
    simp [hs.symm]
  | cons e rest ih =>
    intro b d s c h
    rw [scanEnv_cons] at h
    have hsafe : isSafeOn e =
        match advance e msKey <|> advance e subKey with
        | some v => decide (v = "1".toList ∨ v = "YES".toList)
        | none => false := by
      unfold isSafeOn
      cases advance e msKey <|> advance e subKey <;> simp
    rcases horl : advance e msKey <|> advance e subKey with _ | v
    · rw [horl] at h hsafe
      dsimp only at h hsafe
      rcases hdil : advance e dilKey with _ | v₃ <;> rw [hdil] at h <;>
        simp [List.any_cons, hsafe, ih _ _ _ _ h]
    · rw [horl] at h hsafe
      dsimp only at h hsafe
      by_cases h0 : v = "0".toList ∨ v = "NO".toList
      · rw [if_pos h0] at h
        have hno : isSafeOn e = false := by
          rw [hsafe]
          rcases h0 with h0 | h0 <;> subst h0 <;> decide
        rw [ih _ _ _ _ h, List.any_cons, hno, Bool.false_or]
      · by_cases h1 : v = "1".toList ∨ v = "YES".toList
        · rw [if_neg h0, if_pos h1] at h
          have hyes : isSafeOn e = true := by rw [hsafe]; exact decide_eq_true h1
          simp [ih _ _ _ _ h, List.any_cons, hyes]
        · rw [if_neg h0, if_neg h1] at h; cases h

theorem scanEnv_bad (env : List Str) : ∀ b d,
    env.any isSafeBad = true → scanEnv env b d = .skip := by
  induction env with
  | nil => intro b d h; simp at h
  | cons e rest ih =>
    intro b d h
    rw [scanEnv_cons]
    have hbad : isSafeBad e =
        match advance e msKey <|> advance e subKey with
        | some v => decide ¬(v = "0".toList ∨ v = "NO".toList ∨
            v = "1".toList ∨ v = "YES".toList)
        | none => false := by
      unfold isSafeBad
      cases advance e msKey <|> advance e subKey <;> simp
    rcases horl : advance e msKey <|> advance e subKey with _ | v
    · rw [horl] at hbad
      dsimp only at hbad
      dsimp only
      simp only [List.any_cons, hbad, Bool.false_or] at h
      rcases advance e dilKey with _ | v₃
      · exact ih b d h
      · exact ih b v₃ h
    · rw [horl] at hbad
      dsimp only at hbad
      dsimp only
      by_cases h0 : v = "0".toList ∨ v = "NO".toList
      · rw [if_pos h0]
        have hb : isSafeBad e = false := by
          rw [hbad]
          rcases h0 with h0 | h0 <;> subst h0 <;> decide
        rw [List.any_cons, hb, Bool.false_or] at h
        exact ih b d h
      · by_cases h1 : v = "1".toList ∨ v = "YES".toList
        · rw [if_neg h0, if_pos h1]
          have hb : isSafeBad e = false := by
            rw [hbad]
            rcases h1 with h1 | h1 <;> subst h1 <;> decide
          rw [List.any_cons, hb, Bool.false_or] at h
          exact ih true d h
        · rw [if_neg h0, if_neg h1]

theorem scanEnv_filter (env : List Str) : ∀ b d s c,
    scanEnv env b d = .ok s c →
    ∀ d', scanEnv (env.filter fun e => (advance e dilKey).isNone) b d' = .ok s d' := by
  induction env with
  | nil =>
    intro b d s c h d'
    simp only [scanEnv] at h ⊢
    injection h with hs _
    rw [hs]
  | cons e rest ih =>
    intro b d s c h d'
    rw [scanEnv_cons] at h
    rcases hms : advance e msKey with _ | v₁
    · rcases hsub : advance e subKey with _ | v₂
      · rw [hms, hsub] at h
        simp only [Option.none_orElse] at h
        rcases hdil : advance e dilKey with _ | v₃
        · rw [hdil] at h
          rw [List.filter_cons, if_pos (by simp [hdil])]
          rw [scanEnv_cons, hms, hsub]
          simp only [Option.none_orElse, hdil]
          exact ih b d s c h d'
        · rw [hdil] at h
          rw [List.filter_cons, if_neg (by simp [hdil])]
          exact ih b v₃ s c h d'
      · rw [hms, hsub] at h
        simp only [Option.none_orElse, Option.some_orElse] at h
        have hdil := sub_dil_none hsub
        rw [List.filter_cons, if_pos (by simp [hdil])]
        rw [scanEnv_cons, hms, hsub]
        simp only [Option.none_orElse, Option.some_orElse]
        by_cases h0 : v₂ = "0".toList ∨ v₂ = "NO".toList
        · rw [if_pos h0] at h ⊢; exact ih b d s c h d'
        · by_cases h1 : v₂ = "1".toList ∨ v₂ = "YES".toList
          · rw [if_neg h0, if_pos h1] at h ⊢; exact ih true d s c h d'
          · rw [if_neg h0, if_neg h1] at h; cases h
    · rw [hms] at h
      simp only [Option.some_orElse] at h
      have hdil := ms_dil_none hms
      rw [List.filter_cons, if_pos (by simp [hdil])]
      rw [scanEnv_cons, hms]
      simp only [Option.some_orElse]
      by_cases h0 : v₁ = "0".toList ∨ v₁ = "NO".toList
      · rw [if_pos h0] at h ⊢; exact ih b d s c h d'
      · by_cases h1 : v₁ = "1".toList ∨ v₁ = "YES".toList
        · rw [if_neg h0, if_pos h1] at h ⊢; exact ih true d s c h d'
        · rw [if_neg h0, if_neg h1] at h; cases h

theorem scanEnv_dil_entry (b : Bool) (d v : Str) :
    scanEnv [dilKey ++ v] b d = .ok b v := by
  rw [scanEnv_cons, dil_ms_none, dil_sub_none]
  simp only [Option.none_orElse, advance_append]
  rfl

/-! ## Characterizing the rebuild of lines 266-303 -/

theorem foldl_skipSub (xs : List Str) : ∀ acc : Str,
    xs.foldl (fun acc seg => if isSubstituteLib seg then acc else joinStep acc seg) acc
      = (xs.filter keepSeg).foldl joinStep acc := by
  induction xs with
  | nil => intro acc; rfl
  | cons x xs ih =>
    intro acc
    by_cases hx : isSubstituteLib x
    · simp [List.foldl_cons, hx, ih, List.filter_cons, keepSeg]
    · simp [List.foldl_cons, hx, ih, List.filter_cons, keepSeg]

theorem buildDIL_eq (captured : Str) (safe : Bool) (lib : Str) :
    buildDIL captured safe lib =
      specJoin ((((dilSplit captured).filter keepSeg) ++
        (if safe then [] else [lib])).dropWhile emptyElem) := by
  cases safe
  · have h1 : buildDIL captured false lib =
        joinStep ((dilSplit captured).foldl
          (fun acc seg => if isSubstituteLib seg then acc else joinStep acc seg) []) lib := rfl
    rw [h1, foldl_skipSub]
    have h2 : joinStep (((dilSplit captured).filter keepSeg).foldl joinStep []) lib
        = (((dilSplit captured).filter keepSeg) ++ [lib]).foldl joinStep [] := by
      rw [List.foldl_append]
      rfl
    rw [h2, foldJoin_eq_specJoin]
    simp
  · have h1 : buildDIL captured true lib =
        (dilSplit captured).foldl
          (fun acc seg => if isSubstituteLib seg then acc else joinStep acc seg) [] := rfl
    rw [h1, foldl_skipSub, foldJoin_eq_specJoin]
    simp

theorem buildDIL_eq_false (captured lib : Str) :
    buildDIL captured false lib =
      specJoin ((((dilSplit captured).filter keepSeg) ++ [lib]).dropWhile emptyElem) := by
  rw [buildDIL_eq]
  simp

theorem buildDIL_eq_true (captured lib : Str) :
    buildDIL captured true lib =
      specJoin (((dilSplit captured).filter keepSeg).dropWhile emptyElem) := by
  rw [buildDIL_eq]
  simp

/-- C2 (amended): whenever the rewrite completes, the new environment is
the input with every DYLD_INSERT_LIBRARIES entry removed and all other
entries preserved verbatim in order, plus at most one rebuilt entry
(omitted when its value is empty) whose value is computed from the LAST
original occurrence of the variable: the elements the splitting loop
visits, companion-library elements dropped, the requested library
appended unless safe mode is on, leading empty elements dropped, joined
with colons. -/
theorem C2_env_rewrite (env : List Str) (lib : Str) (safe : Bool) (E : List Str)
    (h : rewriteEnv env lib = .ok safe E) :
    E = (env.filter fun e => (advance e dilKey).isNone) ++
      (if rebuiltValue env safe lib = [] then []
       else [dilKey ++ rebuiltValue env safe lib]) := by
  unfold rewriteEnv at h
  rcases hscan : scanEnv env false [] with _ | ⟨s, c⟩
  · rw [hscan] at h; cases h
  · rw [hscan] at h
    dsimp only at h
    injection h with hs hE
    have hc : c = capturedDIL env := scanEnv_captures env false [] s c hscan
    have hb : buildDIL c s lib = rebuiltValue env s lib := by
      rw [hc, buildDIL_eq]
      rfl
    rw [← hs, ← hE, hb]

/-- C2 witness: the amended description evaluated on a concrete
environment with two occurrences of the variable. -/
theorem C2_env_rewrite_witness :
    ([dilKey ++ ("/b:".toList ++ blDylib)] : List Str) =
      (envTwoDIL.filter fun e => (advance e dilKey).isNone) ++
        (if rebuiltValue envTwoDIL false blDylib = [] then []
         else [dilKey ++ rebuiltValue envTwoDIL false blDylib]) :=
  C2_env_rewrite envTwoDIL blDylib false [dilKey ++ ("/b:".toList ++ blDylib)] (by decide)

/-- C2 counterexample: with two occurrences
DYLD_INSERT_LIBRARIES=/a followed by DYLD_INSERT_LIBRARIES=/b, the code
rebuilds from the LAST occurrence (/b), while the claim predicts the
first (/a): the claimed output differs from the actual one. -/
theorem C2_counterexample :
    rewriteEnv envTwoDIL blDylib =
      .ok false [dilKey ++ ("/b:".toList ++ blDylib)] ∧
    claimC2Env envTwoDIL false blDylib = [dilKey ++ ("/a:".toList ++ blDylib)] ∧
    rewriteEnv envTwoDIL blDylib ≠
      .ok false (claimC2Env envTwoDIL false blDylib) := by decide

/-! ## C3: idempotence of the rewrite -/

theorem companion_facts (lib : Str) (h : lib = blDylib ∨ lib = pshDylib) :
    isSubstituteLib lib = true ∧ lib ≠ [] ∧ ∀ c ∈ lib, c ≠ ':' := by
  rcases h with h | h <;> subst h
  · exact ⟨by decide, by decide, by decide⟩
  · exact ⟨by decide, by decide, by decide⟩

/-- C3 (amended): for the two companion-library paths the hook ever adds,
and a spawn where safe mode is off, the rewrite is idempotent: rewriting
the rewritten environment again is the identity, so in particular the
injected-libraries value does not change. -/
theorem C3_idempotent (env : List Str) (lib : Str) (E : List Str)
    (hlib : lib = blDylib ∨ lib = pshDylib)
    (h : rewriteEnv env lib = .ok false E) :
    rewriteEnv E lib = .ok false E := by
  obtain ⟨hsubLib, hlibne, hlibcf⟩ := companion_facts lib hlib
  unfold rewriteEnv at h
  rcases hscan : scanEnv env false [] with _ | ⟨s, c⟩
  · rw [hscan] at h; cases h
  · rw [hscan] at h
    dsimp only at h
    injection h with hs hE
    have hs' : s = false := hs
    subst hs'
    have hkeeplib : keepSeg lib = false := by
      unfold keepSeg
      rw [hsubLib]
      rfl
    have hplib : emptyElem lib = false := by simp [emptyElem, hlibne]
    have hzs2 : ((dilSplit c).filter keepSeg ++ [lib]).dropWhile emptyElem =
        if ((dilSplit c).filter keepSeg).all emptyElem then [lib]
        else ((dilSplit c).filter keepSeg).dropWhile emptyElem ++ [lib] := by
      rw [dropWhile_append]
      split
      · simp [List.dropWhile_cons, hplib]
      · rfl
    have hlast : (((dilSplit c).filter keepSeg ++ [lib]).dropWhile emptyElem).getLast?
        = some lib := by
      rw [hzs2]
      split
      · rfl
      · exact List.getLast?_concat _
    have hzsne : ((dilSplit c).filter keepSeg ++ [lib]).dropWhile emptyElem ≠ [] := by
      intro hcon
      rw [hcon] at hlast
      cases hlast
    have hv : buildDIL c false lib =
        specJoin (((dilSplit c).filter keepSeg ++ [lib]).dropWhile emptyElem) :=
      buildDIL_eq_false c lib
    have hvne : buildDIL c false lib ≠ [] := by
      rw [hv]
      intro hcon
      rcases specJoin_eq_nil hcon with h1 | h1
      · exact hzsne h1
      · rw [h1] at hlast
        injection hlast with hl
        exact hlibne hl.symm
    have hE2 : E = (env.filter fun e => (advance e dilKey).isNone) ++
        [dilKey ++ buildDIL c false lib] := by
      rw [← hE, if_neg hvne]
    -- the second scan sees the same safe-mode outcome and captures the new value
    have hscan2 : scanEnv E false [] = .ok false (buildDIL c false lib) := by
      rw [hE2, scanEnv_append]
      rw [scanEnv_filter env false [] false c hscan []]
      exact scanEnv_dil_entry false [] _
    -- elements of the rebuilt value are colon-free
    have hzscf : ∀ x ∈ ((dilSplit c).filter keepSeg ++ [lib]).dropWhile emptyElem,
        ∀ ch ∈ x, ch ≠ ':' := by
      intro x hx
      rcases List.mem_append.mp (mem_of_mem_dropWhile hx) with hx' | hx'
      · exact dilSplit_colonFree c x (List.mem_filter.mp hx').1
      · simp only [List.mem_singleton] at hx'
        subst hx'
        exact hlibcf
    -- splitting the rebuilt value gives back its elements
    have hsplit : dilSplit (buildDIL c false lib) =
        ((dilSplit c).filter keepSeg ++ [lib]).dropWhile emptyElem := by
      rw [hv, dilSplit_specJoin _ hzscf, if_neg]
      rw [hlast]
      intro hcon
      injection hcon with hl
      exact hlibne hl
    -- the second rebuild is the identity
    have hidem : buildDIL (buildDIL c false lib) false lib = buildDIL c false lib := by
      rw [buildDIL_eq_false, hsplit, hv]
      by_cases hall : ((dilSplit c).filter keepSeg).all emptyElem
      · rw [hzs2, if_pos hall]
        simp [List.filter_cons, hkeeplib, List.dropWhile_cons, hplib]
      · rw [hzs2, if_neg hall]
        have hfilter : (((dilSplit c).filter keepSeg).dropWhile emptyElem ++ [lib]).filter
            keepSeg = ((dilSplit c).filter keepSeg).dropWhile emptyElem := by
          rw [List.filter_append]
          have h1 : (((dilSplit c).filter keepSeg).dropWhile emptyElem).filter keepSeg =
              ((dilSplit c).filter keepSeg).dropWhile emptyElem :=
            List.filter_eq_self.mpr fun x hx =>
              (List.mem_filter.mp (mem_of_mem_dropWhile hx)).2
          have h2 : List.filter keepSeg [lib] = [] := by
            simp [List.filter_cons, hkeeplib]
          rw [h1, h2, List.append_nil]
        rw [hfilter]
        have h3 : ((((dilSplit c).filter keepSeg).dropWhile emptyElem) ++ [lib]).dropWhile
            emptyElem = ((dilSplit c).filter keepSeg).dropWhile emptyElem ++ [lib] := by
          rw [dropWhile_append, all_dropWhile, if_neg hall, dropWhile_idem]
        rw [h3]
    -- the second filter is the first
    have hfilterE : (E.filter fun e => (advance e dilKey).isNone) =
        env.filter fun e => (advance e dilKey).isNone := by
      rw [hE2, List.filter_append]
      have h1 : ((env.filter fun e => (advance e dilKey).isNone).filter
          fun e => (advance e dilKey).isNone) =
          env.filter fun e => (advance e dilKey).isNone :=
        List.filter_eq_self.mpr fun x hx => (List.mem_filter.mp hx).2
      have h2 : List.filter (fun e => (advance e dilKey).isNone)
          [dilKey ++ buildDIL c false lib] = [] := by
        simp [List.filter_cons, advance_append]
      rw [h1, h2, List.append_nil]
    -- assemble
    unfold rewriteEnv
    rw [hscan2]
    dsimp only
    rw [hidem, if_neg hvne, hfilterE, ← hE2]

/-- C3 witness: idempotence applied at a concrete environment. -/
theorem C3_idempotent_witness :
    rewriteEnv [dilKey ++ blDylib] blDylib = .ok false [dilKey ++ blDylib] :=
  C3_idempotent [] blDylib [dilKey ++ blDylib] (Or.inl rfl) (by decide)

/-- C3 counterexample: as literally stated (any environment, any library)
idempotence fails twice over: a non-companion library is appended again
on the second rewrite, and in safe mode a value with a trailing empty
element shrinks on the second rewrite. -/
theorem C3_counterexample :
    (rewriteEnv [] fooLib = .ok false [dilKey ++ fooLib] ∧
     rewriteEnv [dilKey ++ fooLib] fooLib =
       .ok false [dilKey ++ (fooLib ++ ':' :: fooLib)] ∧
     capturedDIL [dilKey ++ (fooLib ++ ':' :: fooLib)] ≠
       capturedDIL [dilKey ++ fooLib]) ∧
    (rewriteEnv envSafeTrailing blDylib =
       .ok true ["_MSSafeMode=1".toList, dilKey ++ "a:".toList] ∧
     rewriteEnv ["_MSSafeMode=1".toList, dilKey ++ "a:".toList] blDylib =
       .ok true ["_MSSafeMode=1".toList, dilKey ++ "a".toList] ∧
     capturedDIL ["_MSSafeMode=1".toList, dilKey ++ "a".toList] ≠
       capturedDIL ["_MSSafeMode=1".toList, dilKey ++ "a:".toList]) := by decide

/-! ## Shape lemmas for the hook's exits -/

theorem finishOut_events (res : HookResult) (ev : List Event) (acq : Ledger)
    (cl : Bool) : (finishOut res ev acq cl).events = ev := by
  cases res <;> rfl

theorem mkSkip_events (o : Oracle) (rq : Request) (pre : List Event) (acq : Ledger)
    (cl : Bool) : (mkSkip o rq pre acq cl).events = pre ++ [.spawn (origCall rq)] :=
  finishOut_events _ _ _ _

/-- Every exit of the hook taken before the environment scan completes
with safe mode off calls the original primitive with the caller's
original arguments: policy skip, getflags failure, attribute
clone/initialization failure, a bad safe-mode value, and safe mode. -/
theorem hook_events_orig_of_scan_skip (o : Oracle) (rq : Request)
    (h : scanEnv (rq.envp.getD rq.inherited) false [] = .skip) :
    (hook_posix_spawn_generic o rq).events = [.spawn (origCall rq)] := by
  unfold hook_posix_spawn_generic
  by_cases hga : rq.hasAttr ∧ o.getflagsFails
  · rw [if_pos hga, mkSkip_events]
    rfl
  · rw [if_neg hga]
    rcases hpol : decideDylib rq.isLaunchd rq.path rq.argv0 o.readable with _ | d
    · dsimp only
      rw [mkSkip_events]
      rfl
    · dsimp only
      by_cases hac : (if rq.hasAttr then o.attrCloneFails else o.attrInitFails) = true
      · rw [if_pos hac, mkSkip_events]
        rfl
      · rw [if_neg hac, h]
        dsimp only
        rw [mkSkip_events]
        rfl

theorem hook_events_orig_of_policy_none (o : Oracle) (rq : Request)
    (h : decideDylib rq.isLaunchd rq.path rq.argv0 o.readable = none) :
    (hook_posix_spawn_generic o rq).events = [.spawn (origCall rq)] := by
  unfold hook_posix_spawn_generic
  by_cases hga : rq.hasAttr ∧ o.getflagsFails
  · rw [if_pos hga, mkSkip_events]
    rfl
  · rw [if_neg hga, h]
    dsimp only
    rw [mkSkip_events]
    rfl

theorem hook_events_orig_of_safe (o : Oracle) (rq : Request) (c : Str)
    (h : scanEnv (rq.envp.getD rq.inherited) false [] = .ok true c)
    (hna : o.newAllocFails = false) (hea : o.envpAllocFails = false) :
    (hook_posix_spawn_generic o rq).events = [.spawn (origCall rq)] := by
  unfold hook_posix_spawn_generic
  by_cases hga : rq.hasAttr ∧ o.getflagsFails
  · rw [if_pos hga, mkSkip_events]
    rfl
  · rw [if_neg hga]
    rcases hpol : decideDylib rq.isLaunchd rq.path rq.argv0 o.readable with _ | d
    · dsimp only
      rw [mkSkip_events]
      rfl
    · dsimp only
      by_cases hac : (if rq.hasAttr then o.attrCloneFails else o.attrInitFails) = true
      · rw [if_pos hac, mkSkip_events]
        rfl
      · rw [if_neg hac, h]
        simp only [hna, hea, Bool.false_eq_true, if_false, if_true, mkSkip_events,
          List.nil_append]

/-! ## C4: safe-mode handling -/

theorem filterMap_dil_of_filtered (env : List Str) :
    ((env.filter fun e => (advance e dilKey).isNone).filterMap
      fun e => advance e dilKey) = [] := by
  induction env with
  | nil => rfl
  | cons e rest ih =>
    rw [List.filter_cons]
    by_cases hd : (advance e dilKey).isNone = true
    · rw [if_pos hd, List.filterMap_cons,
        Option.isNone_iff_eq_none.mp hd]
      exact ih
    · rw [if_neg hd]
      exact ih

/-- C4 (amended): the scan's safe-mode flag is on exactly when some entry
sets one of the two recognized variables to 1/YES (a later 0/NO does not
clear it); an unrecognized value anywhere makes the scan, and hence the
whole injection, skip to the original call; in safe mode the REWRITTEN
environment's injected-libraries value contains no companion-library
element, but the spawn itself then runs with the caller's original
arguments (original environment included). -/
theorem C4_safe_mode :
    (∀ env s c, scanEnv env false [] = .ok s c → s = env.any isSafeOn) ∧
    (∀ (env : List Str) b d, env.any isSafeBad = true → scanEnv env b d = .skip) ∧
    (∀ (o : Oracle) (rq : Request),
      (rq.envp.getD rq.inherited).any isSafeBad = true →
      (hook_posix_spawn_generic o rq).events = [.spawn (origCall rq)]) ∧
    (∀ (env : List Str) (lib : Str) (E : List Str), rewriteEnv env lib = .ok true E →
      ∀ x ∈ dilSplit (capturedDIL E), isSubstituteLib x = false) ∧
    (∀ (o : Oracle) (rq : Request) (c : Str),
      scanEnv (rq.envp.getD rq.inherited) false [] = .ok true c →
      o.newAllocFails = false → o.envpAllocFails = false →
      (hook_posix_spawn_generic o rq).events = [.spawn (origCall rq)]) := by
  refine ⟨?_, ?_, ?_, ?_, ?_⟩
  · intro env s c h
    exact scanEnv_safe env false [] s c h
  · intro env b d h
    exact scanEnv_bad env b d h
  · intro o rq h
    exact hook_events_orig_of_scan_skip o rq (scanEnv_bad _ false [] h)
  · intro env lib E h x hx
    unfold rewriteEnv at h
    rcases hscan : scanEnv env false [] with _ | ⟨s, c⟩
    · rw [hscan] at h; cases h
    · rw [hscan] at h
      dsimp only at h
      injection h with hs hE
      have hs' : s = true := hs
      subst hs'
      by_cases hv : buildDIL c true lib = []
      · rw [if_pos hv] at hE
        rw [List.append_nil] at hE
        have hcap : capturedDIL E = [] := by
          rw [← hE]
          unfold capturedDIL
          rw [filterMap_dil_of_filtered]
          rfl
        rw [hcap] at hx
        simp [dilSplit] at hx
      · rw [if_neg hv] at hE
        have hcap : capturedDIL E = buildDIL c true lib := by
          rw [← hE]
          unfold capturedDIL
          rw [List.filterMap_append, filterMap_dil_of_filtered]
          simp [List.filterMap_cons, advance_append]
        rw [hcap] at hx
        have hcf : ∀ y ∈ ((dilSplit c).filter keepSeg).dropWhile emptyElem,
            ∀ ch ∈ y, ch ≠ ':' := by
          intro y hy
          exact dilSplit_colonFree c y
            (List.mem_filter.mp (mem_of_mem_dropWhile hy)).1
        rw [buildDIL_eq_true, dilSplit_specJoin _ hcf] at hx
        have hmem : x ∈ ((dilSplit c).filter keepSeg).dropWhile emptyElem := by
          by_cases hl : (((dilSplit c).filter keepSeg).dropWhile emptyElem).getLast?
              = some []
          · rw [if_pos hl] at hx
            exact (List.dropLast_sublist _).mem hx
          · rw [if_neg hl] at hx
            exact hx
        have hkeep := (List.mem_filter.mp (mem_of_mem_dropWhile hmem)).2
        unfold keepSeg at hkeep
        simpa using hkeep
  · intro o rq c h hna hea
    exact hook_events_orig_of_safe o rq c h hna hea

/-- C4 counterexample.  First: with _MSSafeMode=1 followed by
_MSSafeMode=0 the claim's last-value-wins reading says safe mode is
disabled, but the scan leaves it enabled (1/YES is sticky).  Second: with
safe mode on and the bundle-loader path in DYLD_INSERT_LIBRARIES, the
spawn runs with the caller's ORIGINAL arguments (environment included),
so the environment actually used does contain a companion-library path in
its injected-libraries value. -/
theorem C4_counterexample :
    (claimC4Safe envOnOff = some false ∧
     scanEnv envOnOff false [] = .ok true []) ∧
    ((hook_posix_spawn_generic oracleOK rqSafeBl).events =
       [.spawn (origCall rqSafeBl)] ∧
     (origCall rqSafeBl).env = .orig ∧
     blDylib ∈ dilSplit (capturedDIL envSafeWithBl)) := by decide

/-- C4 witness: the safe-mode exit applied at a concrete request whose
environment enables safe mode. -/
theorem C4_safe_mode_witness :
    (hook_posix_spawn_generic oracleOK rqSafeBl).events =
      [.spawn (origCall rqSafeBl)] :=
  C4_safe_mode.2.2.2.2 oracleOK rqSafeBl blDylib (by decide) rfl rfl

/-! ## C5: the binary restriction inspector -/

/-- C6: for launchd, injection happens only for target
/usr/libexec/xpcproxy and selects posixspawn-hook.dylib; for any other
caller bundle-loader.dylib is selected, and only when the target is
neither the substituted helper nor notifyd, the basename of argv[0] is
not sshd, and the library is readable; conversely those conditions
produce the bundle-loader decision; and whenever the policy skips, the
hook calls the original primitive with the caller's unmodified
arguments. -/
theorem C6_policy :
    (∀ (path : Str) (argv0 : Option Str) (readable : Str → Bool) (l : Str),
      decideDylib true path argv0 readable = some l →
        path = xpcproxyPath ∧ l = pshDylib) ∧
    (∀ (path : Str) (argv0 : Option Str) (readable : Str → Bool) (l : Str),
      decideDylib false path argv0 readable = some l →
        l = blDylib ∧ path ≠ substitutedPath ∧ path ≠ notifydPath ∧
        xbasename (argv0.getD []) ≠ sshdName ∧ readable blDylib = true) ∧
    (∀ (path : Str) (argv0 : Option Str) (readable : Str → Bool),
      ¬(path = substitutedPath ∨ path = notifydPath ∨
          xbasename (argv0.getD []) = sshdName) →
      readable blDylib = true →
      decideDylib false path argv0 readable = some blDylib) ∧
    (∀ (o : Oracle) (rq : Request),
      decideDylib rq.isLaunchd rq.path rq.argv0 o.readable = none →
      (hook_posix_spawn_generic o rq).events = [.spawn (origCall rq)]) := by
  refine ⟨?_, ?_, ?_, ?_⟩
  · intro path argv0 readable l h
    unfold decideDylib at h
    by_cases hp : path ≠ xpcproxyPath
    · rw [if_pos rfl, if_pos hp] at h
      cases h
    · rw [if_pos rfl, if_neg hp] at h
      dsimp only at h
      by_cases hr : readable pshDylib = true
      · rw [if_pos hr] at h
        injection h with hl
        exact ⟨not_not.mp hp, hl.symm⟩
      · rw [if_neg hr] at h
        cases h
  · intro path argv0 readable l h
    unfold decideDylib at h
    rw [if_neg (by exact Bool.false_ne_true)] at h
    by_cases hex : path = substitutedPath ∨ path = notifydPath ∨
        xbasename (argv0.getD []) = sshdName
    · rw [if_pos hex] at h
      cases h
    · rw [if_neg hex] at h
      dsimp only at h
      by_cases hr : readable blDylib = true
      · rw [if_pos hr] at h
        injection h with hl
        refine ⟨hl.symm, ?_, ?_, ?_, hr⟩
        · intro hc; exact hex (Or.inl hc)
        · intro hc; exact hex (Or.inr (Or.inl hc))
        · intro hc; exact hex (Or.inr (Or.inr hc))
      · rw [if_neg hr] at h
        cases h
  · intro path argv0 readable hex hr
    unfold decideDylib
    rw [if_neg (by exact Bool.false_ne_true), if_neg hex]
    dsimp only
    rw [if_pos hr]
  · intro o rq h
    exact hook_events_orig_of_policy_none o rq h

/-- C6 witness: the skip half applied at a concrete excluded target
(notifyd), and the launchd rule applied concretely. -/
theorem C6_policy_witness :
    (hook_posix_spawn_generic oracleOK
        { rqPlain with path := notifydPath }).events =
      [.spawn (origCall { rqPlain with path := notifydPath })] :=
  C6_policy.2.2.2 oracleOK { rqPlain with path := notifydPath } (by decide)

/-! ## C9: resource balance of one interception call -/

theorem finishOut_acq (res : HookResult) (ev : List Event) (acq : Ledger) (cl : Bool) :
    (finishOut res ev acq cl).acq = acq := by
  cases res <;> rfl

theorem finishOut_cloexec (res : HookResult) (ev : List Event) (acq : Ledger) (cl : Bool) :
    (finishOut res ev acq cl).markerCloexec = cl := by
  cases res <;> rfl

theorem finishOut_ret_rel (res : HookResult) (ev : List Event) (acq : Ledger) (cl : Bool)
    (r : Int) (h : (finishOut res ev acq cl).result = .ret r) :
    (finishOut res ev acq cl).rel = cleanupRel acq := by
  cases res with
  | ret r' => rfl
  | noReturn => exact absurd h (by simp [finishOut])
  | crash => exact absurd h (by simp [finishOut])

theorem mkSkip_ret_rel (o : Oracle) (rq : Request) (pre : List Event) (acq : Ledger)
    (cl : Bool) (r : Int) (h : (mkSkip o rq pre acq cl).result = .ret r) :
    (mkSkip o rq pre acq cl).rel = cleanupRel acq :=
  finishOut_ret_rel _ _ _ _ _ h

theorem mkSkip_acq (o : Oracle) (rq : Request) (pre : List Event) (acq : Ledger)
    (cl : Bool) : (mkSkip o rq pre acq cl).acq = acq :=
  finishOut_acq _ _ _ _

theorem injectedFinish_ret_rel (o : Oracle) (rq : Request) (pre : List Event)
    (acq : Ledger) (cl : Bool) (flags : Nat) (newEnv : List Str) (need ws : Bool)
    (r : Int)
    (h : (injectedFinish o rq pre acq cl flags newEnv need ws).result = .ret r) :
    (injectedFinish o rq pre acq cl flags newEnv need ws).rel = cleanupRel acq := by
  revert h
  unfold injectedFinish
  dsimp only
  repeat' split
  all_goals intro h
  all_goals exact finishOut_ret_rel _ _ _ _ _ h

theorem injectedFinish_acq (o : Oracle) (rq : Request) (pre : List Event)
    (acq : Ledger) (cl : Bool) (flags : Nat) (newEnv : List Str) (need ws : Bool) :
    (injectedFinish o rq pre acq cl flags newEnv need ws).acq = acq := by
  unfold injectedFinish
  dsimp only
  repeat' split
  all_goals exact finishOut_acq _ _ _ _

/-- Every execution of the hook ends in one of its three exit builders:
the skip label, a crash on an unchecked malloc, or the injected call. -/
theorem hook_cases (o : Oracle) (rq : Request) (P : HookOut → Prop)
    (hskip : ∀ pre acq cl, P (mkSkip o rq pre acq cl))
    (hcrash : ∀ ev acq, P (mkCrash ev acq))
    (hinj : ∀ pre acq cl flags newEnv need ws,
      P (injectedFinish o rq pre acq cl flags newEnv need ws)) :
    P (hook_posix_spawn_generic o rq) := by
  unfold hook_posix_spawn_generic
  by_cases hga : rq.hasAttr ∧ o.getflagsFails
  · rw [if_pos hga]; exact hskip _ _ _
  · rw [if_neg hga]
    rcases hpol : decideDylib rq.isLaunchd rq.path rq.argv0 o.readable with _ | dylib
    · exact hskip _ _ _
    · dsimp only
      by_cases hac : (if rq.hasAttr then o.attrCloneFails else o.attrInitFails) = true
      · rw [if_pos hac]; exact hskip _ _ _
      · rw [if_neg hac]
        rcases hscan : scanEnv (rq.envp.getD rq.inherited) false [] with _ | ⟨sm, cap⟩
        · exact hskip _ _ _
        · dsimp only
          by_cases hna : o.newAllocFails = true
          · rw [if_pos hna]; exact hcrash _ _
          · rw [if_neg hna]
            by_cases hea : o.envpAllocFails = true
            · rw [if_pos hea]; exact hcrash _ _
            · rw [if_neg hea]
              by_cases hsm : sm = true
              · rw [if_pos hsm]; exact hskip _ _ _
              · rw [if_neg hsm]
                by_cases hlr : looks_restricted o.file = true
                · rw [if_pos hlr]
                  by_cases hsf : o.setflagsFails = true
                  · rw [if_pos hsf]; exact hskip _ _ _
                  · rw [if_neg hsf]
                    by_cases hse : (origFlags rq ||| STARTSUSPENDED) &&& SETEXEC ≠ 0
                    · rw [if_pos hse]
                      by_cases hdup : o.dup2Fails = true
                      · rw [if_pos hdup]; exact hskip _ _ _
                      · rw [if_neg hdup]
                        by_cases hfc : o.fcntlFails = true
                        · rw [if_pos hfc]; exact hskip _ _ _
                        · rw [if_neg hfc]
                          by_cases hpre : o.unrestrictPreFails = true
                          · rw [if_pos hpre]; exact hskip _ _ _
                          · rw [if_neg hpre]; exact hinj _ _ _ _ _ _ _
                    · rw [if_neg hse]; exact hinj _ _ _ _ _ _ _
                · rw [if_neg hlr]; exact hinj _ _ _ _ _ _ _

/-- C9 (amended): on every returning execution the cleanup label releases
exactly what was acquired except the marker descriptor: the inspector's
descriptor and buffer, the rebuilt environment string and array, and the
cloned attributes are all released, while descriptor 255, when it was
created, stays open (it is closed only by the close-on-exec flag when a
replace-exec succeeds, in which case the call does not return). -/
theorem C9_release (o : Oracle) (rq : Request) (r : Int)
    (h : (hook_posix_spawn_generic o rq).result = .ret r) :
    (hook_posix_spawn_generic o rq).rel =
      cleanupRel (hook_posix_spawn_generic o rq).acq ∧
    (hook_posix_spawn_generic o rq).rel.fd255 = false := by
  revert h
  refine hook_cases o rq
    (fun out => out.result = .ret r → out.rel = cleanupRel out.acq ∧
      out.rel.fd255 = false) ?_ ?_ ?_
  · intro pre acq cl h
    rw [mkSkip_acq, mkSkip_ret_rel o rq pre acq cl r h]
    exact ⟨rfl, rfl⟩
  · intro ev acq h
    exact absurd h (by simp [mkCrash])
  · intro pre acq cl flags newEnv need ws h
    rw [injectedFinish_acq, injectedFinish_ret_rel o rq pre acq cl flags newEnv need ws r h]
    exact ⟨rfl, rfl⟩

/-- C9 witness: the balance applied at a concrete returning execution. -/
theorem C9_release_witness :
    (hook_posix_spawn_generic oracleOK rqPlain).rel =
      cleanupRel (hook_posix_spawn_generic oracleOK rqPlain).acq ∧
    (hook_posix_spawn_generic oracleOK rqPlain).rel.fd255 = false :=
  C9_release oracleOK rqPlain 0 (by decide)

/-- C9 counterexample: a restricted replace-exec spawn whose final
primitive call fails returns to the caller with the marker descriptor 255
still open: a file descriptor acquired during the interception call
survives it. -/
theorem C9_counterexample :
    (hook_posix_spawn_generic oracleRestrictedOldFail rqExec).result = .ret 2 ∧
    (hook_posix_spawn_generic oracleRestrictedOldFail rqExec).acq.fd255 = true ∧
    (hook_posix_spawn_generic oracleRestrictedOldFail rqExec).rel.fd255 = false := by
  decide

/-! ## C7: the unrestriction coordinator -/

theorem or_susp_setexec (n : Nat) :
    (n ||| STARTSUSPENDED) &&& SETEXEC = n &&& SETEXEC := by
  unfold STARTSUSPENDED SETEXEC
  apply Nat.eq_of_testBit_eq
  intro i
  simp only [Nat.testBit_land, Nat.testBit_lor]
  rcases h : Nat.testBit 64 i with _ | _
  · simp
  · have h6 : i = 6 := by
      by_contra hne
      rw [show (64 : Nat) = 2 ^ 6 by norm_num,
        Nat.testBit_two_pow_of_ne (Ne.symm hne)] at h
      exact Bool.noConfusion h
    subst h6
    simp [show Nat.testBit 128 6 = false by decide]

theorem injectedFinish_cloexec (o : Oracle) (rq : Request) (pre : List Event)
    (acq : Ledger) (cl : Bool) (flags : Nat) (newEnv : List Str) (need ws : Bool) :
    (injectedFinish o rq pre acq cl flags newEnv need ws).markerCloexec = cl := by
  unfold injectedFinish
  dsimp only
  repeat' split
  all_goals exact finishOut_cloexec _ _ _ _

theorem injectedFinish_events_setexec (o : Oracle) (rq : Request) (pre : List Event)
    (acq : Ledger) (cl : Bool) (flags : Nat) (newEnv : List Str) (need ws : Bool)
    (hse : flags &&& SETEXEC ≠ 0) :
    (injectedFinish o rq pre acq cl flags newEnv need ws).events =
      pre ++ [.spawn (injectedCall rq flags newEnv)] := by
  unfold injectedFinish
  dsimp only
  by_cases hr : o.oldCall (injectedCall rq flags newEnv) = 0
  · rw [if_pos ⟨hse, hr⟩]
    exact finishOut_events _ _ _ _
  · rw [if_neg (fun hc => hr hc.2), if_pos hr]
    exact finishOut_events _ _ _ _

theorem injectedFinish_events_nosetexec (o : Oracle) (rq : Request) (pre : List Event)
    (acq : Ledger) (cl : Bool) (flags : Nat) (newEnv : List Str) (ws : Bool)
    (hse : ¬(flags &&& SETEXEC ≠ 0)) :
    (injectedFinish o rq pre acq cl flags newEnv true ws).events =
      pre ++ [.spawn (injectedCall rq flags newEnv)] ++
        (if o.oldCall (injectedCall rq flags newEnv) = 0 then
          [.helper (spawn_unrestrict o.childPid (!ws) false) (!o.unrestrictPostFails)]
         else []) := by
  unfold injectedFinish
  dsimp only
  by_cases hr : o.oldCall (injectedCall rq flags newEnv) = 0
  · rw [if_neg (fun hc => hse hc.1), if_neg (fun hc => hc hr)]
    simp [finishOut_events, hr]
  · rw [if_neg (fun hc => hse hc.1), if_pos hr, finishOut_events, if_neg hr,
      List.append_nil]

/-- C7: on a restricted target the suspended flag is forced on with the
caller's original setting recorded in the helper's resume flag; a
replace-exec spawn installs the close-on-exec marker descriptor 255 and
runs the unrestrict helper (with the current pid, resume = negation of
the original suspended setting, exec flag on) before the primitive, and a
helper start failure falls back to the unmodified call; a create-new
spawn calls the primitive first and runs the helper with the child pid
only on success; the helper is always spawned through the un-hooked
original primitive with argv {prog, pid, resume, exec} and environment
exactly {_MSSafeMode=1}. -/
theorem C7_unrestrict (o : Oracle) (rq : Request) (d c : Str) (E : List Str)
    (hga : ¬(rq.hasAttr ∧ o.getflagsFails))
    (hpol : decideDylib rq.isLaunchd rq.path rq.argv0 o.readable = some d)
    (hac : ¬((if rq.hasAttr then o.attrCloneFails else o.attrInitFails) = true))
    (hscan : scanEnv (rq.envp.getD rq.inherited) false [] = .ok false c)
    (hna : o.newAllocFails = false)
    (hea : o.envpAllocFails = false)
    (hsf : o.setflagsFails = false)
    (hrest : looks_restricted o.file = true)
    (hE : E = rewrittenEnvOf (rq.envp.getD rq.inherited) c false d) :
    (∀ (pid : Int) (sr ie : Bool),
      (spawn_unrestrict pid sr ie).env = ["_MSSafeMode=1".toList] ∧
      (spawn_unrestrict pid sr ie).viaOriginal = true ∧
      (spawn_unrestrict pid sr ie).argv =
        [unrestrictProg, (toString pid).toList,
         (if sr then "1" else "0").toList, (if ie then "1" else "0").toList]) ∧
    (origFlags rq &&& SETEXEC ≠ 0 →
      o.dup2Fails = false → o.fcntlFails = false → o.unrestrictPreFails = false →
      (hook_posix_spawn_generic o rq).events =
        [.helper (spawn_unrestrict o.selfPid (!wasSuspendedOf rq) true) true,
         .spawn (injectedCall rq (origFlags rq ||| STARTSUSPENDED) E)] ∧
      (hook_posix_spawn_generic o rq).acq.fd255 = true ∧
      (hook_posix_spawn_generic o rq).markerCloexec = true) ∧
    (origFlags rq &&& SETEXEC ≠ 0 →
      o.dup2Fails = false → o.fcntlFails = false → o.unrestrictPreFails = true →
      (hook_posix_spawn_generic o rq).events =
        [.helper (spawn_unrestrict o.selfPid (!wasSuspendedOf rq) true) false,
         .spawn (origCall rq)]) ∧
    (origFlags rq &&& SETEXEC = 0 →
      (hook_posix_spawn_generic o rq).events =
        [.spawn (injectedCall rq (origFlags rq ||| STARTSUSPENDED) E)] ++
          (if o.oldCall (injectedCall rq (origFlags rq ||| STARTSUSPENDED) E) = 0 then
            [.helper (spawn_unrestrict o.childPid (!wasSuspendedOf rq) false)
              (!o.unrestrictPostFails)]
           else [])) := by
  subst hE
  have hred : hook_posix_spawn_generic o rq =
      (if (origFlags rq ||| STARTSUSPENDED) &&& SETEXEC ≠ 0 then
        (if o.dup2Fails = true then mkSkip o rq [] (ledgerD o.file) false
         else if o.fcntlFails = true then mkSkip o rq [] (ledgerE o.file) false
         else if o.unrestrictPreFails = true then
           mkSkip o rq
             [.helper (spawn_unrestrict o.selfPid (!wasSuspendedOf rq) true) false]
             (ledgerE o.file) true
         else
           injectedFinish o rq
             [.helper (spawn_unrestrict o.selfPid (!wasSuspendedOf rq) true) true]
             (ledgerE o.file) true (origFlags rq ||| STARTSUSPENDED)
             (rewrittenEnvOf (rq.envp.getD rq.inherited) c false d) true
             (wasSuspendedOf rq))
       else
         injectedFinish o rq [] (ledgerD o.file) false
           (origFlags rq ||| STARTSUSPENDED)
           (rewrittenEnvOf (rq.envp.getD rq.inherited) c false d) true
           (wasSuspendedOf rq)) := by
    unfold hook_posix_spawn_generic
    rw [if_neg hga, hpol]
    dsimp only
    rw [if_neg hac, hscan]
    dsimp only
    rw [if_neg (by simp [hna]), if_neg (by simp [hea]),
      if_neg (by exact Bool.false_ne_true), if_pos hrest,
      if_neg (by simp [hsf])]
  refine ⟨fun pid sr ie => ⟨rfl, rfl, rfl⟩, ?_, ?_, ?_⟩
  · intro hse hdup hfc hpre
    have hse1 : (origFlags rq ||| STARTSUSPENDED) &&& SETEXEC ≠ 0 := by
      rw [or_susp_setexec]; exact hse
    rw [hred, if_pos hse1, if_neg (by simp [hdup]), if_neg (by simp [hfc]),
      if_neg (by simp [hpre])]
    refine ⟨?_, ?_, ?_⟩
    · rw [injectedFinish_events_setexec _ _ _ _ _ _ _ _ _ hse1]
      rfl
    · rw [injectedFinish_acq]
      rfl
    · rw [injectedFinish_cloexec]
  · intro hse hdup hfc hpre
    have hse1 : (origFlags rq ||| STARTSUSPENDED) &&& SETEXEC ≠ 0 := by
      rw [or_susp_setexec]; exact hse
    rw [hred, if_pos hse1, if_neg (by simp [hdup]), if_neg (by simp [hfc]),
      if_pos hpre, mkSkip_events]
    rfl
  · intro hse0
    have hse1 : ¬((origFlags rq ||| STARTSUSPENDED) &&& SETEXEC ≠ 0) := by
      rw [or_susp_setexec, hse0]
      exact fun hc => hc rfl
    rw [hred, if_neg hse1,
      injectedFinish_events_nosetexec _ _ _ _ _ _ _ _ hse1, List.nil_append]

/-- C7 witness: the replace-exec half applied at a concrete restricted
SETEXEC spawn on which every step succeeds. -/
theorem C7_unrestrict_witness :
    (hook_posix_spawn_generic oracleRestricted rqExec).events =
      [.helper (spawn_unrestrict oracleRestricted.selfPid
         (!wasSuspendedOf rqExec) true) true,
       .spawn (injectedCall rqExec (origFlags rqExec ||| STARTSUSPENDED)
         (rewrittenEnvOf (rqExec.envp.getD rqExec.inherited) [] false blDylib))] ∧
    (hook_posix_spawn_generic oracleRestricted rqExec).acq.fd255 = true ∧
    (hook_posix_spawn_generic oracleRestricted rqExec).markerCloexec = true :=
  (C7_unrestrict oracleRestricted rqExec blDylib []
    (rewrittenEnvOf (rqExec.envp.getD rqExec.inherited) [] false blDylib)
    (by decide) (by decide) (by decide) (by decide) rfl rfl rfl (by decide)
    rfl).2.1 (by decide) rfl rfl rfl

/-! ## C8: the sandbox override -/

/-- C8: the sandbox override answers "allowed" (0) without consulting the
original checker exactly when the operation is mach-lookup and the
first captured slot names the com.ex.substituted service; in every other
case it forwards the same pid, operation and type together with the five
captured trailing slots to the original checker and returns its result
unchanged. -/
theorem C8_sandbox (deref : Int → Str) (pid : Int) (op : Str) (typ : Int)
    (slots : List Int) :
    (hook_sandbox_check deref pid op typ slots = .allowed ↔
      (op = machLookupOp ∧ deref (slots.headD 0) = substitutedService)) ∧
    (¬(op = machLookupOp ∧ deref (slots.headD 0) = substitutedService) →
      hook_sandbox_check deref pid op typ slots = .forward pid op typ slots) := by
  unfold hook_sandbox_check
  by_cases h : op = machLookupOp ∧ deref (slots.headD 0) = substitutedService
  · rw [if_pos h]
    exact ⟨⟨fun _ => h, fun _ => rfl⟩, fun hc => absurd h hc⟩
  · rw [if_neg h]
    refine ⟨⟨fun hc => ?_, fun hc => absurd hc h⟩, fun _ => rfl⟩
    cases hc

/-- C8 witness: a non-matching operation is forwarded unchanged. -/
theorem C8_sandbox_witness :
    hook_sandbox_check (fun _ => []) 7 "file-read".toList 3 [1, 2, 3, 4, 5] =
      .forward 7 "file-read".toList 3 [1, 2, 3, 4, 5] :=
  (C8_sandbox (fun _ => []) 7 "file-read".toList 3 [1, 2, 3, 4, 5]).2 (by decide)

/-! ## C10: a null argv[0] -/

/-- C10: the sshd exclusion substitutes the empty string for a NULL
argv[0] before taking the basename, so the decision is the same as with
an empty program name, the empty basename never equals sshd, and for a
null argv[0] the policy can only skip because of the two path exclusions
or an unreadable library. -/
theorem C10_null_argv0 :
    (∀ (path : Str) (readable : Str → Bool),
      decideDylib false path none readable =
        decideDylib false path (some []) readable) ∧
    xbasename ((none : Option Str).getD []) ≠ sshdName ∧
    (∀ (path : Str) (readable : Str → Bool),
      decideDylib false path none readable = none →
        path = substitutedPath ∨ path = notifydPath ∨ readable blDylib = false) := by
  refine ⟨fun path readable => rfl, by decide, ?_⟩
  intro path readable h
  unfold decideDylib at h
  rw [if_neg (by exact Bool.false_ne_true)] at h
  by_cases hex : path = substitutedPath ∨ path = notifydPath ∨
      xbasename ((none : Option Str).getD []) = sshdName
  · rcases hex with h1 | h1 | h1
    · exact Or.inl h1
    · exact Or.inr (Or.inl h1)
    · exact absurd h1 (by decide)
  · rw [if_neg hex] at h
    dsimp only at h
    by_cases hr : readable blDylib = true
    · rw [if_pos hr] at h
      cases h
    · rw [if_neg hr] at h
      exact Or.inr (Or.inr (Bool.eq_false_iff.mpr hr))

/-- C10 witness: the skip characterization applied at notifyd. -/
theorem C10_null_argv0_witness :
    notifydPath = substitutedPath ∨ notifydPath = notifydPath ∨
      (fun _ : Str => true) blDylib = false :=
  C10_null_argv0.2.2 notifydPath (fun _ => true) (by decide)

/-! ## C1: internal failures and the fallback -/

/-- C1 evaluation at the failing input: when the malloc for the rebuilt
DYLD_INSERT_LIBRARIES string (line 266) fails during an injected spawn,
the hook dereferences the NULL result instead of falling back: the
execution is undefined behaviour and the original primitive is never
called (no spawn event at all).  By contrast an attribute-initialization
failure does fall back to the original call and returns its result. -/
theorem C1_alloc_crash :
    (hook_posix_spawn_generic oracleNewAllocFail rqXpc).result = .crash ∧
    (hook_posix_spawn_generic oracleNewAllocFail rqXpc).events = [] ∧
    (hook_posix_spawn_generic { oracleOK with attrInitFails := true } rqPlain).events
      = [.spawn (origCall rqPlain)] ∧
    (hook_posix_spawn_generic { oracleOK with attrInitFails := true } rqPlain).result
      = .ret 0 := by decide

/-! ## Concrete sanity evaluations of the embedded functions -/

theorem sanity_scan_basic :
    scanEnv ["HOME=/var".toList, "DYLD_INSERT_LIBRARIES=/a".toList] false []
      = .ok false "/a".toList := by decide

theorem sanity_scan_skip :
    scanEnv ["_MSSafeMode=maybe".toList] false [] = .skip := by decide

theorem sanity_build :
    buildDIL "/a".toList false blDylib
      = "/a:/Library/Substitute/Helpers/bundle-loader.dylib".toList := by decide

theorem sanity_build_drops_companion :
    buildDIL ("/a:".toList ++ pshDylib) false blDylib
      = "/a:/Library/Substitute/Helpers/bundle-loader.dylib".toList := by decide

theorem sanity_restricted : looks_restricted (some restrictedBytes) = true := by decide

theorem sanity_plain : looks_restricted (some plainBytes) = false := by decide

theorem sanity_hook_injects :
    (hook_posix_spawn_generic oracleOK rqXpc).events =
      [.spawn (injectedCall rqXpc 0 [dilKey ++ pshDylib])] := by decide

end PosixSpawnHook
